import Mathlib

/-!
Verification of the background task scheduler in
`src/background_task_service.py` (Galatea-OS).

Shallow embedding conventions:
* A point in time (`datetime`) is an integer number of seconds (`Int`);
  `timedelta(seconds = c)` is integer addition.
* The ISO-8601 serialisation of the standard library is treated as a
  parameter: an abstract pair of functions `iso : Int → String`
  (`datetime.isoformat`) and `p : String → Option Int`
  (`datetime.fromisoformat`, returning `none` exactly when the Python
  call raises).  Theorems that need the round trip state it as a
  hypothesis and witnesses instantiate it with `toString` / `String.toInt?`.
* JSON task records are structures whose fields are `Option`-valued,
  mirroring `dict.get` with its defaults (`Option.getD`).
* `float` values (`bounty.reward`, `q_learning.reward_weight`) are
  embedded as `Rat`; the claims under study only involve ordering and
  multiplication at exactly representable values.
-/

namespace BTS

/-- `runtime` sub-record of a task (`task.get("runtime", {})`). -/
structure Runtime where
  enabled : Option Bool
deriving DecidableEq, Repr

/-- `bounty` sub-record of a task (`task.get("bounty", {})`). -/
structure Bounty where
  reward : Option Rat
  priority : Option Int
  cooldown_sec : Option Int
deriving DecidableEq, Repr

/-- `q_learning` sub-record of a task. -/
structure QLearning where
  state_key : Option String
  action_key : Option String
  reward_weight : Option Rat
deriving DecidableEq, Repr

/-- `state` sub-record of a task (`task.get("state", {})`); every field
is optional, an absent `state` dict is the record with all fields
`none`. -/
structure TaskState where
  status : Option String
  available : Option Bool
  last_started_at : Option String
  last_completed_at : Option String
  next_available_at : Option String
  last_result : Option String
  consecutive_failures : Option Int
deriving DecidableEq, Repr

/-- A task record of the JSON task store. -/
structure Task where
  id : Option String
  name : Option String
  action : Option String
  domain : Option String
  runtime : Runtime
  bounty : Bounty
  q_learning : QLearning
  state : TaskState
deriving DecidableEq, Repr

/-- `TaskRunResult` dataclass. -/
structure TaskRunResult where
  ok : Bool
  details : String
deriving DecidableEq, Repr

/-- `parse_iso_or_none`: `None` and the empty string are falsy and give
`None`; otherwise `datetime.fromisoformat` (the abstract `p`), whose
failure (exception, caught) is `p s = none`. -/
def parse_iso_or_none (p : String → Option Int) (value : Option String) : Option Int :=
  match value with
  | none => none
  | some s => if s = "" then none else p s

/-- `BackgroundTaskService._available`.  A parsed `datetime` is always
truthy in Python, so `if next_at and now < next_at` is the `some`
branch compared with `now`. -/
def isAvailable (p : String → Option Int) (task : Task) (now : Int) : Bool :=
  if task.runtime.enabled.getD true = false then false
  else if task.state.status = some "running" then false
  else
    match parse_iso_or_none p task.state.next_available_at with
    | some nextAt => if now < nextAt then false else true
    | none => true

/-- Overwrite the derived `state.available` field of one task. -/
def setAvail (task : Task) (b : Bool) : Task :=
  { task with state := { task.state with available := some b } }

/-- `BackgroundTaskService._refresh_availability` at a fixed call time
`now` (`utc_now()` is sampled once per call in the source). -/
def refreshAvailability (p : String → Option Int) (now : Int) (tasks : List Task) : List Task :=
  tasks.map (fun t => setAvail t (isAvailable p t now))

/-- `t.get("state", {}).get("available", False)` as used by the
selection policy. -/
def taskAvailable (t : Task) : Bool :=
  t.state.available.getD false

/-- The composite sort key of the greedy policy:
`(float(reward) * float(reward_weight), int(priority))` with defaults
`0`, `1.0`, `0`. -/
def sortKey (t : Task) : Rat × Int :=
  ((t.bounty.reward.getD 0) * (t.q_learning.reward_weight.getD 1), t.bounty.priority.getD 0)

/-- Lexicographic "greater or equal" on sort keys: the comparison under
which Python's `sort(key=..., reverse=True)` lists keys in
non-increasing order. -/
def keyGe (a b : Rat × Int) : Bool :=
  decide (b.1 < a.1) || (decide (a.1 = b.1) && decide (b.2 ≤ a.2))

/-- The task-level sort relation of `candidates.sort(key=..., reverse=True)`. -/
def sortLe (a b : Task) : Prop :=
  keyGe (sortKey a) (sortKey b) = true

instance : DecidableRel sortLe :=
  fun a b => inferInstanceAs (Decidable (keyGe (sortKey a) (sortKey b) = true))

/-- `candidates.sort(key=lambda t: (score, priority), reverse=True)`.
Python's sort is stable and here descending; a stable descending sort
is extensionally unique, and `List.insertionSort` with the reflexive
descending comparison `sortLe` computes exactly that ordering (ties
keep original order because an earlier element `a` with `sortLe a b`
is inserted before an equal later `b`). -/
def sortDesc (l : List Task) : List Task :=
  List.insertionSort sortLe l

/-- The greedy branch of `BackgroundTaskService._pick_task_id`:
filter to available tasks, return `None` when empty, else the `id` of
the head of the descending stable sort. -/
def pickGreedyId (tasks : List Task) : Option String :=
  match sortDesc (tasks.filter taskAvailable) with
  | [] => none
  | t :: _ => t.id

/-- `BackgroundTaskService._pick_task_id`.  `if preferred_task_id:` is
a truthiness test, so `None` and `""` both fall through to the greedy
branch; the preferred loop returns the preferred id on the first task
with that id and a truthy `state.available`, else `None`. -/
def pickTaskId (tasks : List Task) (preferred : Option String) : Option String :=
  match preferred with
  | some pid =>
    if pid = "" then pickGreedyId tasks
    else if tasks.any (fun t => decide (t.id = some pid) && taskAvailable t) then some pid
    else none
  | none => pickGreedyId tasks

/-- `BackgroundTaskService._mark_post_run` with the call's `utc_now()`
passed in as `now` and `isoformat` as `iso`. -/
def markPostRun (iso : Int → String) (now : Int) (task : Task) (result : TaskRunResult) : Task :=
  let cooldown : Int := task.bounty.cooldown_sec.getD 0
  { task with state :=
    { task.state with
      status := some (if result.ok then "success" else "failed")
      last_completed_at := some (iso now)
      last_result := some result.details
      consecutive_failures :=
        some (if result.ok then 0 else task.state.consecutive_failures.getD 0 + 1)
      next_available_at := if cooldown > 0 then some (iso (now + cooldown)) else none
      available := some (if cooldown > 0 then false else true) } }

/-- The capability interface of `BackgroundTaskService._execute_action`:
the four async handler methods of the browser / service adapters,
abstracted as pure result-producing functions (their file-logging side
effects are outside the task store and bounty board). -/
structure Adapters where
  memory_update : Task → TaskRunResult
  reload_service : Task → TaskRunResult
  claim_daily_rewards : Task → TaskRunResult
  close_advertisement : Task → TaskRunResult

/-- `str.strip()`: drop leading and trailing whitespace from the
character sequence. -/
def pyStrip (s : String) : String :=
  String.mk (((s.data.dropWhile Char.isWhitespace).reverse.dropWhile Char.isWhitespace).reverse)

/-- `BackgroundTaskService._execute_action`:
`(task.get("action") or "").strip()` then dispatch on the four keys,
else the `Unknown action` failure result. -/
def executeAction (ad : Adapters) (task : Task) : TaskRunResult :=
  let action := pyStrip (task.action.getD "")
  if action = "memory_update" then ad.memory_update task
  else if action = "reload_service" then ad.reload_service task
  else if action = "claim_daily_rewards" then ad.claim_daily_rewards task
  else if action = "close_advertisement" then ad.close_advertisement task
  else { ok := false, details := "Unknown action: " ++ action }

/-- One bounty board item as built in `_to_bounty_board`. -/
structure BoardEntry where
  id : Option String
  name : Option String
  action : Option String
  domain : Option String
  available : Bool
  cooldown_sec : Int
  next_available_at : Option String
  reward : Rat
  priority : Int
  state_key : Option String
  action_key : Option String
  reward_weight : Rat
  last_result : Option String
deriving DecidableEq, Repr

/-- The bounty board snapshot document. -/
structure Board where
  updated_at : String
  loop_type : String
  tasks : List BoardEntry
deriving DecidableEq, Repr

/-- The projection of one task into its board item. -/
def boardEntry (t : Task) : BoardEntry :=
  { id := t.id
    name := t.name
    action := t.action
    domain := t.domain
    available := t.state.available.getD false
    cooldown_sec := t.bounty.cooldown_sec.getD 0
    next_available_at := t.state.next_available_at
    reward := t.bounty.reward.getD 0
    priority := t.bounty.priority.getD 0
    state_key := t.q_learning.state_key
    action_key := t.q_learning.action_key
    reward_weight := t.q_learning.reward_weight.getD 1
    last_result := t.state.last_result }

/-- `BackgroundTaskService._to_bounty_board`: it first refreshes
availability in place (mutating the store that is saved afterwards),
then projects every task; `refreshNow` is the `utc_now()` of that
inner refresh and `stampNow` the `iso_now()` of `updated_at`.  Returns
the mutated task list together with the board. -/
def toBountyBoard (p : String → Option Int) (iso : Int → String)
    (refreshNow stampNow : Int) (tasks : List Task) : List Task × Board :=
  let ts := refreshAvailability p refreshNow tasks
  (ts, { updated_at := iso stampNow, loop_type := "closed", tasks := ts.map boardEntry })

/-- The in-place mutation of the selected task before dispatch in
`run_once`: `status="running"`, `last_started_at=iso_now()`,
`available=False`. -/
def markRunning (iso : Int → String) (now : Int) (task : Task) : Task :=
  { task with state :=
    { task.state with
      status := some "running"
      last_started_at := some (iso now)
      available := some false } }

/-- Replace the first element satisfying `pr` by its image under `f`;
the Python code mutates the single object delivered by
`next(t for t in tasks if ...)`, which is the first match in list
order. -/
def updateFirst (pr : Task → Bool) (f : Task → Task) : List Task → List Task
  | [] => []
  | t :: ts => if pr t then f t :: ts else t :: updateFirst pr f ts

/-- The task store document: `data.get("tasks", [])`. -/
structure Store where
  tasks : List Task
deriving DecidableEq, Repr

/-- The two files the service reads and writes; `none` models an
absent file. -/
structure World where
  taskFile : Option Store
  boardFile : Option Board
deriving DecidableEq, Repr

/-- The structured dict returned by `run_once`. -/
inductive CycleResult where
  | notRan (reason : String)
  | ran (task_id : String) (ok : Bool) (details : String)
deriving DecidableEq, Repr

/-- The `utc_now()` / `iso_now()` samples of the clock, one per call
site reached during a `run_once` cycle, in call order. -/
structure Times where
  refresh1 : Int
  started : Int
  postRun : Int
  refresh2 : Int
  boardRefresh : Int
  boardStamp : Int
deriving DecidableEq, Repr

/-- `if not task_id:` on the selected id — `None` and `""` are falsy. -/
def truthyId : Option String → Option String
  | none => none
  | some s => if s = "" then none else some s

/-- `BackgroundTaskService.run_once`.  An uncaught Python exception is
`Except.error`; it is returned together with the world as it stood
when the exception was raised (no file had been written on the
modelled error paths).  The happy path threads the store through
refresh, selection, the two in-place mutations of the selected task,
the post-settle refresh, the bounty board write (whose inner refresh
also mutates the store) and the save. -/
def runOnce (p : String → Option Int) (iso : Int → String) (tms : Times)
    (ad : Adapters) (taskFilePath : String) (preferred : Option String)
    (w : World) : World × Except String CycleResult :=
  match w.taskFile with
  | none => (w, Except.error ("Task file not found: " ++ taskFilePath))
  | some store =>
    let tasks1 := refreshAvailability p tms.refresh1 store.tasks
    match truthyId (pickTaskId tasks1 preferred) with
    | none =>
      let pair := toBountyBoard p iso tms.boardRefresh tms.boardStamp tasks1
      ({ taskFile := some ⟨pair.1⟩, boardFile := some pair.2 },
       Except.ok (CycleResult.notRan "no_available_task"))
    | some tid =>
      match tasks1.find? (fun t => decide (t.id = some tid)) with
      | none => (w, Except.error "StopIteration")
      | some t0 =>
        let t1 := markRunning iso tms.started t0
        let tasks2 := updateFirst (fun t => decide (t.id = some tid)) (fun _ => t1) tasks1
        let result := executeAction ad t1
        let t2 := markPostRun iso tms.postRun t1 result
        let tasks3 := updateFirst (fun t => decide (t.id = some tid)) (fun _ => t2) tasks2
        let tasks4 := refreshAvailability p tms.refresh2 tasks3
        let pair := toBountyBoard p iso tms.boardRefresh tms.boardStamp tasks4
        ({ taskFile := some ⟨pair.1⟩, boardFile := some pair.2 },
         Except.ok (CycleResult.ran tid result.ok result.details))

/-- A concrete adapter set used by witnesses. -/
def sampleAdapters : Adapters :=
  ⟨fun _ => ⟨true, "m"⟩, fun _ => ⟨true, "r"⟩, fun _ => ⟨false, "c"⟩, fun _ => ⟨false, "a"⟩⟩

/-- A concrete disabled task used by witnesses to exercise the
no-eligible-task cycle. -/
def sampleDisabledTask : Task :=
  { id := some "t1", name := some "n", action := some "memory_update", domain := none,
    runtime := ⟨some false⟩, bounty := ⟨some 5, some 1, some 60⟩,
    q_learning := ⟨none, none, none⟩,
    state := ⟨some "failed", some true, none, none, none, some "r", some 2⟩ }

/-- First of two tasks sharing the id `"x"`: disabled, so never
available. -/
def sampleDup1 : Task :=
  { id := some "x", name := some "first", action := some "frobnicate", domain := none,
    runtime := ⟨some false⟩, bounty := ⟨some 5, some 1, some 60⟩,
    q_learning := ⟨none, none, none⟩,
    state := ⟨none, none, none, none, none, none, none⟩ }

/-- Second task with the same id `"x"`: enabled and idle, so
available. -/
def sampleDup2 : Task :=
  { id := some "x", name := some "second", action := some "memory_update", domain := none,
    runtime := ⟨some true⟩, bounty := ⟨some 5, some 1, some 60⟩,
    q_learning := ⟨none, none, none⟩,
    state := ⟨none, none, none, none, none, none, none⟩ }

/-- The first maximum of a task list under the descending composite
key: the element the head of the stable descending sort must be.
(Specification-side characterisation, compared against `sortDesc`.) -/
def firstMaxTask : List Task → Option Task
  | [] => none
  | t :: ts =>
    match firstMaxTask ts with
    | none => some t
    | some m => if keyGe (sortKey t) (sortKey m) = true then some t else some m

/-! ### Helper lemmas -/

theorem getD_true_eq_false_iff (e : Option Bool) : e.getD true = false ↔ e = some false := by
  rcases e with _ | b
  · simp
  · cases b <;> simp

theorem isAvailable_setAvail (p : String → Option Int) (t : Task) (b : Bool) (now : Int) :
    isAvailable p (setAvail t b) now = isAvailable p t now := rfl

theorem setAvail_setAvail (t : Task) (b b2 : Bool) :
    setAvail (setAvail t b) b2 = setAvail t b2 := rfl

theorem taskAvailable_setAvail (t : Task) (b : Bool) :
    taskAvailable (setAvail t b) = b := rfl

theorem refresh_refresh (p : String → Option Int) (t1 t2 : Int) (l : List Task) :
    refreshAvailability p t2 (refreshAvailability p t1 l) = refreshAvailability p t2 l := by
  simp only [refreshAvailability, List.map_map]
  exact List.map_congr_left fun t _ => by
    simp [Function.comp, setAvail_setAvail, isAvailable_setAvail]

theorem isAvailable_false_iff (p : String → Option Int) (task : Task) (now : Int) :
    isAvailable p task now = false ↔
      (task.runtime.enabled = some false ∨ task.state.status = some "running" ∨
        ∃ u, parse_iso_or_none p task.state.next_available_at = some u ∧ now < u) := by
  unfold isAvailable
  split
  · next h => simp [(getD_true_eq_false_iff _).mp h]
  · next h =>
    have h1 : task.runtime.enabled ≠ some false := fun hh =>
      h ((getD_true_eq_false_iff _).mpr hh)
    split
    · next h2 => simp [h2]
    · next h2 =>
      split
      · next u heq =>
        split
        · next hlt =>
          constructor
          · intro _
            exact Or.inr (Or.inr ⟨u, heq, hlt⟩)
          · intro _
            rfl
        · next hlt =>
          constructor
          · intro hh
            cases hh
          · rintro (hh | hh | ⟨u2, hp2, hlt2⟩)
            · exact absurd hh h1
            · exact absurd hh h2
            · rw [heq] at hp2
              cases hp2
              exact absurd hlt2 hlt
      · next heq =>
        constructor
        · intro hh
          cases hh
        · rintro (hh | hh | ⟨u2, hp2, hlt2⟩)
          · exact absurd hh h1
          · exact absurd hh h2
          · rw [heq] at hp2
            cases hp2

/-! ### Claim theorems -/

/-- Claim C1: `_available` returns `false` exactly when `runtime.enabled`
is explicitly false, or `state.status` is `"running"`, or
`state.next_available_at` parses to a timestamp strictly greater than
`now`; and a task settled at `T` with `cooldown_sec = 30` is
unavailable for every `t` in `[T, T+30)` and available at `t = T + 30`
exactly. -/
theorem available_false_iff_cooldown_boundary
    (p : String → Option Int) (iso : Int → String) (task : Task)
    (now T : Int) (result : TaskRunResult) :
    (isAvailable p task now = false ↔
      (task.runtime.enabled = some false ∨ task.state.status = some "running" ∨
        ∃ u, parse_iso_or_none p task.state.next_available_at = some u ∧ now < u)) ∧
    (task.bounty.cooldown_sec = some 30 →
      task.runtime.enabled ≠ some false →
      iso (T + 30) ≠ "" →
      p (iso (T + 30)) = some (T + 30) →
      (∀ t : Int, T ≤ t → t < T + 30 →
        isAvailable p (markPostRun iso T task result) t = false) ∧
      isAvailable p (markPostRun iso T task result) (T + 30) = true) := by
  refine ⟨isAvailable_false_iff p task now, ?_⟩
  intro hc henb hne hp30
  have hnext : (markPostRun iso T task result).state.next_available_at =
      some (iso (T + 30)) := by
    simp [markPostRun, hc]
  have hparse : parse_iso_or_none p (markPostRun iso T task result).state.next_available_at =
      some (T + 30) := by
    rw [hnext]
    simp [parse_iso_or_none, hne, hp30]
  have hstat : (markPostRun iso T task result).state.status ≠ some "running" := by
    simp only [markPostRun]
    cases result.ok <;> simp
  have hen : ¬ (markPostRun iso T task result).runtime.enabled.getD true = false := by
    have : (markPostRun iso T task result).runtime = task.runtime := rfl
    rw [this]
    exact fun h => henb ((getD_true_eq_false_iff _).mp h)
  constructor
  · intro t h1 h2
    simp [isAvailable, hen, hstat, hparse, h2]
  · simp [isAvailable, hen, hstat, hparse]

/-- Claim C1 witness: a fully concrete instance of the cooldown
boundary with `cooldown_sec = 30`, completion time `100`, a concrete
serialisation pair that round-trips at `130`, and probe times `115`
and `130`. -/
theorem available_false_iff_cooldown_boundary_witness :
    (({ id := some "t1", name := none, action := some "memory_update", domain := none,
        runtime := ⟨some true⟩, bounty := ⟨some 5, some 1, some 30⟩,
        q_learning := ⟨none, none, none⟩,
        state := ⟨none, none, none, none, none, none, none⟩ } : Task).bounty.cooldown_sec
      = some 30) ∧
    isAvailable (fun s => if s = "ts130" then some 130 else none)
      (markPostRun (fun t => if t = 130 then "ts130" else "ts") 100
        { id := some "t1", name := none, action := some "memory_update", domain := none,
          runtime := ⟨some true⟩, bounty := ⟨some 5, some 1, some 30⟩,
          q_learning := ⟨none, none, none⟩,
          state := ⟨none, none, none, none, none, none, none⟩ } ⟨true, "ok"⟩) 115 = false ∧
    isAvailable (fun s => if s = "ts130" then some 130 else none)
      (markPostRun (fun t => if t = 130 then "ts130" else "ts") 100
        { id := some "t1", name := none, action := some "memory_update", domain := none,
          runtime := ⟨some true⟩, bounty := ⟨some 5, some 1, some 30⟩,
          q_learning := ⟨none, none, none⟩,
          state := ⟨none, none, none, none, none, none, none⟩ } ⟨true, "ok"⟩) 130 = true := by
  have h := (available_false_iff_cooldown_boundary
    (fun s => if s = "ts130" then some 130 else none)
    (fun t => if t = 130 then "ts130" else "ts")
    { id := some "t1", name := none, action := some "memory_update", domain := none,
      runtime := ⟨some true⟩, bounty := ⟨some 5, some 1, some 30⟩,
      q_learning := ⟨none, none, none⟩,
      state := ⟨none, none, none, none, none, none, none⟩ }
    0 100 ⟨true, "ok"⟩).2 (by decide) (by decide) (by decide) (by decide)
  exact ⟨by decide, h.1 115 (by decide) (by decide), h.2⟩

/-- Claim C4: `_mark_post_run` settles the task: status
`"success"`/`"failed"` from `ok`, `last_completed_at = now`,
`last_result = details`, `consecutive_failures` reset on success and
incremented on failure, `next_available_at = now + cooldown_sec` when
`cooldown_sec > 0` and absent otherwise, and `available` false exactly
when a cooldown was set. -/
theorem mark_post_run_settles
    (iso : Int → String) (now : Int) (task : Task) (res : TaskRunResult) :
    (markPostRun iso now task res).state.status =
      some (if res.ok then "success" else "failed") ∧
    (markPostRun iso now task res).state.last_completed_at = some (iso now) ∧
    (markPostRun iso now task res).state.last_result = some res.details ∧
    (markPostRun iso now task res).state.consecutive_failures =
      some (if res.ok then 0 else task.state.consecutive_failures.getD 0 + 1) ∧
    (markPostRun iso now task res).state.next_available_at =
      (if task.bounty.cooldown_sec.getD 0 > 0
        then some (iso (now + task.bounty.cooldown_sec.getD 0)) else none) ∧
    ((markPostRun iso now task res).state.available = some false ↔
      task.bounty.cooldown_sec.getD 0 > 0) ∧
    ((markPostRun iso now task res).state.available = some true ↔
      ¬ task.bounty.cooldown_sec.getD 0 > 0) := by
  refine ⟨rfl, rfl, rfl, rfl, rfl, ?_, ?_⟩ <;>
    by_cases hc : task.bounty.cooldown_sec.getD 0 > 0 <;>
    simp [markPostRun, hc]

/-- Claim C5: an action outside the four recognized keys yields
`ok = false` with a detail naming the action, independently of the
adapters (no handler is invoked), and the normal failure bookkeeping
of `_mark_post_run` still applies to that result. -/
theorem unknown_action_settles_failed
    (ad ad2 : Adapters) (task : Task) (iso : Int → String) (now : Int)
    (h1 : pyStrip (task.action.getD "") ≠ "memory_update")
    (h2 : pyStrip (task.action.getD "") ≠ "reload_service")
    (h3 : pyStrip (task.action.getD "") ≠ "claim_daily_rewards")
    (h4 : pyStrip (task.action.getD "") ≠ "close_advertisement") :
    executeAction ad task =
      { ok := false, details := "Unknown action: " ++ pyStrip (task.action.getD "") } ∧
    executeAction ad2 task = executeAction ad task ∧
    (markPostRun iso now task (executeAction ad task)).state.status = some "failed" ∧
    (markPostRun iso now task (executeAction ad task)).state.consecutive_failures =
      some (task.state.consecutive_failures.getD 0 + 1) ∧
    (markPostRun iso now task (executeAction ad task)).state.next_available_at =
      (if task.bounty.cooldown_sec.getD 0 > 0
        then some (iso (now + task.bounty.cooldown_sec.getD 0)) else none) := by
  have he : executeAction ad task =
      { ok := false, details := "Unknown action: " ++ pyStrip (task.action.getD "") } := by
    unfold executeAction
    rw [if_neg h1, if_neg h2, if_neg h3, if_neg h4]
  have he2 : executeAction ad2 task =
      { ok := false, details := "Unknown action: " ++ pyStrip (task.action.getD "") } := by
    unfold executeAction
    rw [if_neg h1, if_neg h2, if_neg h3, if_neg h4]
  refine ⟨he, he2.trans he.symm, ?_, ?_, rfl⟩
  · rw [he]
    rfl
  · rw [he]
    rfl

/-- Claim C5 witness: a task whose action is `"frobnicate"`, two
different concrete adapter sets, time `7`. -/
theorem unknown_action_settles_failed_witness :
    executeAction
      ⟨fun _ => ⟨true, "m"⟩, fun _ => ⟨true, "r"⟩, fun _ => ⟨false, "c"⟩, fun _ => ⟨false, "a"⟩⟩
      { id := some "t1", name := none, action := some "frobnicate", domain := none,
        runtime := ⟨some true⟩, bounty := ⟨some 5, some 1, some 60⟩,
        q_learning := ⟨none, none, none⟩,
        state := ⟨none, none, none, none, none, none, some 2⟩ } =
      { ok := false, details := "Unknown action: frobnicate" } ∧
    (markPostRun (fun t => if t = 67 then "ts67" else "ts") 7
      { id := some "t1", name := none, action := some "frobnicate", domain := none,
        runtime := ⟨some true⟩, bounty := ⟨some 5, some 1, some 60⟩,
        q_learning := ⟨none, none, none⟩,
        state := ⟨none, none, none, none, none, none, some 2⟩ }
      (executeAction
        ⟨fun _ => ⟨true, "m"⟩, fun _ => ⟨true, "r"⟩, fun _ => ⟨false, "c"⟩, fun _ => ⟨false, "a"⟩⟩
        { id := some "t1", name := none, action := some "frobnicate", domain := none,
          runtime := ⟨some true⟩, bounty := ⟨some 5, some 1, some 60⟩,
          q_learning := ⟨none, none, none⟩,
          state := ⟨none, none, none, none, none, none, some 2⟩ })).state.status
      = some "failed" := by
  have h := unknown_action_settles_failed
    ⟨fun _ => ⟨true, "m"⟩, fun _ => ⟨true, "r"⟩, fun _ => ⟨false, "c"⟩, fun _ => ⟨false, "a"⟩⟩
    ⟨fun _ => ⟨false, "x"⟩, fun _ => ⟨false, "y"⟩, fun _ => ⟨true, "z"⟩, fun _ => ⟨true, "w"⟩⟩
    { id := some "t1", name := none, action := some "frobnicate", domain := none,
      runtime := ⟨some true⟩, bounty := ⟨some 5, some 1, some 60⟩,
      q_learning := ⟨none, none, none⟩,
      state := ⟨none, none, none, none, none, none, some 2⟩ }
    (fun t => if t = 67 then "ts67" else "ts") 7
    (by decide) (by decide) (by decide) (by decide)
  refine ⟨?_, h.2.2.1⟩
  rw [h.1]
  decide

/-- Claim C7: refreshing availability twice at the same time is
idempotent, and `_available` depends only on `runtime.enabled`,
`state.status` and `state.next_available_at` compared against the
time. -/
theorem refresh_idempotent_available_pure
    (p : String → Option Int) (now : Int) (tasks : List Task) (t1 t2 : Task) :
    refreshAvailability p now (refreshAvailability p now tasks) =
      refreshAvailability p now tasks ∧
    (t1.runtime.enabled = t2.runtime.enabled →
      t1.state.status = t2.state.status →
      t1.state.next_available_at = t2.state.next_available_at →
      isAvailable p t1 now = isAvailable p t2 now) := by
  refine ⟨refresh_refresh p now now tasks, ?_⟩
  intro he hs hn
  unfold isAvailable
  rw [he, hs, hn]

/-- Claim C7 witness: a concrete one-task store at time `0`, and two
tasks agreeing on the three relevant fields while differing in id,
bounty, counters and `available`. -/
theorem refresh_idempotent_available_pure_witness :
    refreshAvailability (fun _ => none) 0
      (refreshAvailability (fun _ => none) 0
        [{ id := some "t1", name := none, action := none, domain := none,
           runtime := ⟨some true⟩, bounty := ⟨some 5, some 1, some 60⟩,
           q_learning := ⟨none, none, none⟩,
           state := ⟨some "failed", some true, none, none, none, none, some 3⟩ }]) =
      refreshAvailability (fun _ => none) 0
        [{ id := some "t1", name := none, action := none, domain := none,
           runtime := ⟨some true⟩, bounty := ⟨some 5, some 1, some 60⟩,
           q_learning := ⟨none, none, none⟩,
           state := ⟨some "failed", some true, none, none, none, none, some 3⟩ }] ∧
    isAvailable (fun _ => none)
      { id := some "a", name := some "n", action := none, domain := none,
        runtime := ⟨some true⟩, bounty := ⟨some 9, some 4, some 10⟩,
        q_learning := ⟨none, none, some 2⟩,
        state := ⟨some "success", some true, some "s", some "c", some "bad-ts", some "r", some 7⟩ } 0 =
    isAvailable (fun _ => none)
      { id := some "b", name := none, action := some "memory_update", domain := some "d",
        runtime := ⟨some true⟩, bounty := ⟨some 1, some 2, some 3⟩,
        q_learning := ⟨some "sk", some "ak", none⟩,
        state := ⟨some "success", some false, none, none, some "bad-ts", none, none⟩ } 0 := by
  have h := refresh_idempotent_available_pure (fun _ => none) 0
    [{ id := some "t1", name := none, action := none, domain := none,
       runtime := ⟨some true⟩, bounty := ⟨some 5, some 1, some 60⟩,
       q_learning := ⟨none, none, none⟩,
       state := ⟨some "failed", some true, none, none, none, none, some 3⟩ }]
    { id := some "a", name := some "n", action := none, domain := none,
      runtime := ⟨some true⟩, bounty := ⟨some 9, some 4, some 10⟩,
      q_learning := ⟨none, none, some 2⟩,
      state := ⟨some "success", some true, some "s", some "c", some "bad-ts", some "r", some 7⟩ }
    { id := some "b", name := none, action := some "memory_update", domain := some "d",
      runtime := ⟨some true⟩, bounty := ⟨some 1, some 2, some 3⟩,
      q_learning := ⟨some "sk", some "ak", none⟩,
      state := ⟨some "success", some false, none, none, some "bad-ts", none, none⟩ }
  exact ⟨h.1, h.2 (by decide) (by decide) (by decide)⟩

/-- Claim C8: an absent, empty, or unparsable `next_available_at`
makes `parse_iso_or_none` return `none`, and availability then behaves
exactly as if the field were absent (the cooldown gate imposes no
constraint and no error is raised — the embedding is total). -/
theorem malformed_next_available_no_constraint
    (p : String → Option Int) (v : Option String) (task : Task) (now : Int)
    (hv : v = none ∨ v = some "" ∨ ∃ s, v = some s ∧ p s = none)
    (ht : task.state.next_available_at = v) :
    parse_iso_or_none p v = none ∧
    isAvailable p task now =
      isAvailable p
        { task with state := { task.state with next_available_at := none } } now := by
  have hp : parse_iso_or_none p v = none := by
    rcases hv with rfl | rfl | ⟨s, rfl, hs⟩
    · rfl
    · rfl
    · by_cases hse : s = "" <;> simp [parse_iso_or_none, hse, hs]
  refine ⟨hp, ?_⟩
  unfold isAvailable
  rw [ht, hp]
  rfl

/-- Claim C8 witness: the unparsable string `"not-a-date"` under a
parse function that rejects it, on a task that is otherwise enabled
and idle at time `5`. -/
theorem malformed_next_available_no_constraint_witness :
    parse_iso_or_none (fun _ => none) (some "not-a-date") = none ∧
    isAvailable (fun _ => none)
      { id := some "t1", name := none, action := none, domain := none,
        runtime := ⟨some true⟩, bounty := ⟨some 5, some 1, some 60⟩,
        q_learning := ⟨none, none, none⟩,
        state := ⟨some "failed", some false, none, none, some "not-a-date", none, none⟩ } 5 =
    isAvailable (fun _ => none)
      { id := some "t1", name := none, action := none, domain := none,
        runtime := ⟨some true⟩, bounty := ⟨some 5, some 1, some 60⟩,
        q_learning := ⟨none, none, none⟩,
        state := { status := some "failed", available := some false, last_started_at := none,
                   last_completed_at := none, next_available_at := none, last_result := none,
                   consecutive_failures := none } } 5 :=
  malformed_next_available_no_constraint (fun _ => none) (some "not-a-date")
    { id := some "t1", name := none, action := none, domain := none,
      runtime := ⟨some true⟩, bounty := ⟨some 5, some 1, some 60⟩,
      q_learning := ⟨none, none, none⟩,
      state := ⟨some "failed", some false, none, none, some "not-a-date", none, none⟩ } 5
    (Or.inr (Or.inr ⟨"not-a-date", rfl, rfl⟩)) rfl

/-- Claim C9: when the task-store file is absent, `run_once` fails
fatally — the error propagates, nothing is caught, and neither the
task store nor the bounty board is written (the world is returned
unchanged). -/
theorem missing_task_file_fatal
    (p : String → Option Int) (iso : Int → String) (tms : Times) (ad : Adapters)
    (path : String) (preferred : Option String) (board : Option Board) :
    runOnce p iso tms ad path preferred ⟨none, board⟩ =
      (⟨none, board⟩, Except.error ("Task file not found: " ++ path)) := rfl

theorem keyGe_refl (a : Rat × Int) : keyGe a a = true := by
  simp [keyGe]

theorem keyGe_trans {a b c : Rat × Int} (h1 : keyGe a b = true) (h2 : keyGe b c = true) :
    keyGe a c = true := by
  simp only [keyGe, Bool.or_eq_true, Bool.and_eq_true, decide_eq_true_eq] at h1 h2 ⊢
  rcases h1 with h1 | ⟨h1e, h1le⟩ <;> rcases h2 with h2 | ⟨h2e, h2le⟩
  · exact Or.inl (lt_trans h2 h1)
  · left
    rw [← h2e]
    exact h1
  · left
    rw [h1e]
    exact h2
  · right
    exact ⟨h1e.trans h2e, le_trans h2le h1le⟩

theorem keyGe_total (a b : Rat × Int) : keyGe a b = true ∨ keyGe b a = true := by
  simp only [keyGe, Bool.or_eq_true, Bool.and_eq_true, decide_eq_true_eq]
  rcases lt_trichotomy a.1 b.1 with h | h | h
  · exact Or.inr (Or.inl h)
  · rcases le_total b.2 a.2 with h2 | h2
    · exact Or.inl (Or.inr ⟨h, h2⟩)
    · exact Or.inr (Or.inr ⟨h.symm, h2⟩)
  · exact Or.inl (Or.inl h)

theorem firstMaxTask_cons_isSome (a : Task) (as : List Task) :
    (firstMaxTask (a :: as)).isSome = true := by
  unfold firstMaxTask
  rcases firstMaxTask as with _ | m
  · rfl
  · show (if keyGe (sortKey a) (sortKey m) = true then some a else some m).isSome = true
    by_cases hk : keyGe (sortKey a) (sortKey m) = true
    · rw [if_pos hk]
      rfl
    · rw [if_neg hk]
      rfl

theorem sortDesc_head (l : List Task) : (sortDesc l).head? = firstMaxTask l := by
  induction l with
  | nil => rfl
  | cons t ts ih =>
    have hstep : sortDesc (t :: ts) = List.orderedInsert sortLe t (sortDesc ts) := rfl
    rw [hstep]
    rcases hs : sortDesc ts with _ | ⟨y, ys⟩
    · rw [hs] at ih
      unfold firstMaxTask
      rw [← ih]
      rfl
    · rw [hs] at ih
      unfold firstMaxTask
      rw [← ih]
      show (List.orderedInsert sortLe t (y :: ys)).head? =
        (if keyGe (sortKey t) (sortKey y) = true then some t else some y)
      simp only [List.orderedInsert]
      by_cases hle : keyGe (sortKey t) (sortKey y) = true
      · rw [if_pos hle, if_pos (show sortLe t y from hle)]
        rfl
      · rw [if_neg hle, if_neg (show ¬ sortLe t y from hle)]
        rfl

theorem firstMaxTask_spec (l : List Task) (c : Task) (h : firstMaxTask l = some c) :
    ∃ i, l.get? i = some c ∧ (∀ d ∈ l, keyGe (sortKey c) (sortKey d) = true) ∧
      (∀ j d, j < i → l.get? j = some d → keyGe (sortKey d) (sortKey c) = false) := by
  induction l generalizing c with
  | nil => cases h
  | cons t ts ih =>
    unfold firstMaxTask at h
    rcases hm : firstMaxTask ts with _ | m
    · rw [hm] at h
      cases h
      have hts : ts = [] := by
        cases ts with
        | nil => rfl
        | cons a as =>
          have := firstMaxTask_cons_isSome a as
          rw [hm] at this
          cases this
      subst hts
      refine ⟨0, rfl, ?_, ?_⟩
      · intro d hd
        rcases List.mem_cons.mp hd with rfl | hd2
        · exact keyGe_refl _
        · cases hd2
      · intro j d hj hget
        omega
    · rw [hm] at h
      have h2 : (if keyGe (sortKey t) (sortKey m) = true then some t else some m) = some c := h
      by_cases hk : keyGe (sortKey t) (sortKey m) = true
      · rw [if_pos hk] at h2
        cases h2
        obtain ⟨i, hgi, hall, hfirst⟩ := ih m hm
        refine ⟨0, rfl, ?_, ?_⟩
        · intro d hd
          rcases List.mem_cons.mp hd with rfl | hd2
          · exact keyGe_refl _
          · exact keyGe_trans hk (hall d hd2)
        · intro j d hj hget
          omega
      · rw [if_neg hk] at h2
        cases h2
        obtain ⟨i, hgi, hall, hfirst⟩ := ih c hm
        refine ⟨i + 1, by simpa using hgi, ?_, ?_⟩
        · intro d hd
          rcases List.mem_cons.mp hd with rfl | hd2
          · rcases keyGe_total (sortKey d) (sortKey c) with h1 | h1
            · exact absurd h1 hk
            · exact h1
          · exact hall d hd2
        · intro j d hj hget
          cases j with
          | zero =>
            have hdt : d = t := by
              simpa using hget.symm
            subst hdt
            rcases hb : keyGe (sortKey d) (sortKey c) with _ | _
            · rfl
            · exact absurd hb hk
          | succ j2 =>
            exact hfirst j2 d (by omega) hget

theorem pickGreedyId_eq_bind (tasks : List Task) :
    pickGreedyId tasks = (firstMaxTask (tasks.filter taskAvailable)).bind Task.id := by
  unfold pickGreedyId
  rw [← sortDesc_head (tasks.filter taskAvailable)]
  rcases sortDesc (tasks.filter taskAvailable) with _ | ⟨x, xs⟩
  · rfl
  · rfl

/-- Claim C2: greedy selection (no preferred id) returns the id of the
candidate that is maximal under the descending composite key
`(reward * reward_weight, priority)`, with ties after both keys broken
by original list order (every earlier candidate is strictly below the
chosen one); with no available task it returns none. -/
theorem greedy_selection_first_max (tasks : List Task) :
    (tasks.filter taskAvailable = [] → pickTaskId tasks none = none) ∧
    (tasks.filter taskAvailable ≠ [] →
      ∃ i c, (tasks.filter taskAvailable).get? i = some c ∧
        pickTaskId tasks none = c.id ∧
        (∀ d ∈ tasks.filter taskAvailable, keyGe (sortKey c) (sortKey d) = true) ∧
        (∀ j d, j < i → (tasks.filter taskAvailable).get? j = some d →
          keyGe (sortKey d) (sortKey c) = false)) := by
  constructor
  · intro hempty
    show pickGreedyId tasks = none
    rw [pickGreedyId_eq_bind, hempty]
    rfl
  · intro hne
    obtain ⟨a, as, hl⟩ := List.exists_cons_of_ne_nil hne
    have hfm : (firstMaxTask (tasks.filter taskAvailable)).isSome = true := by
      rw [hl]
      exact firstMaxTask_cons_isSome a as
    obtain ⟨c, hc⟩ := Option.isSome_iff_exists.mp hfm
    obtain ⟨i, hgi, hall, hfirst⟩ := firstMaxTask_spec _ c hc
    refine ⟨i, c, hgi, ?_, hall, hfirst⟩
    show pickGreedyId tasks = c.id
    rw [pickGreedyId_eq_bind, hc]
    rfl

/-- Claim C2 witness: the spec's two scenarios in one list —
eligible tasks A(reward 10, weight 1, priority 1), B(reward 5,
weight 1, priority 5): A wins on the primary key. -/
theorem greedy_selection_first_max_witness :
    ([{ id := some "A", name := none, action := none, domain := none,
        runtime := ⟨some true⟩, bounty := ⟨some 10, some 1, none⟩,
        q_learning := ⟨none, none, some 1⟩,
        state := ⟨none, some true, none, none, none, none, none⟩ },
      { id := some "B", name := none, action := none, domain := none,
        runtime := ⟨some true⟩, bounty := ⟨some 5, some 5, none⟩,
        q_learning := ⟨none, none, some 1⟩,
        state := ⟨none, some true, none, none, none, none, none⟩ }].filter taskAvailable ≠ []) ∧
    (∃ i c,
      ([{ id := some "A", name := none, action := none, domain := none,
          runtime := ⟨some true⟩, bounty := ⟨some 10, some 1, none⟩,
          q_learning := ⟨none, none, some 1⟩,
          state := ⟨none, some true, none, none, none, none, none⟩ },
        { id := some "B", name := none, action := none, domain := none,
          runtime := ⟨some true⟩, bounty := ⟨some 5, some 5, none⟩,
          q_learning := ⟨none, none, some 1⟩,
          state := ⟨none, some true, none, none, none, none, none⟩ }].filter taskAvailable).get? i
        = some c ∧
      pickTaskId
        [{ id := some "A", name := none, action := none, domain := none,
           runtime := ⟨some true⟩, bounty := ⟨some 10, some 1, none⟩,
           q_learning := ⟨none, none, some 1⟩,
           state := ⟨none, some true, none, none, none, none, none⟩ },
         { id := some "B", name := none, action := none, domain := none,
           runtime := ⟨some true⟩, bounty := ⟨some 5, some 5, none⟩,
           q_learning := ⟨none, none, some 1⟩,
           state := ⟨none, some true, none, none, none, none, none⟩ }] none = c.id ∧
      (∀ d ∈ [{ id := some "A", name := none, action := none, domain := none,
                runtime := ⟨some true⟩, bounty := ⟨some 10, some 1, none⟩,
                q_learning := ⟨none, none, some 1⟩,
                state := ⟨none, some true, none, none, none, none, none⟩ },
              { id := some "B", name := none, action := none, domain := none,
                runtime := ⟨some true⟩, bounty := ⟨some 5, some 5, none⟩,
                q_learning := ⟨none, none, some 1⟩,
                state := ⟨none, some true, none, none, none, none, none⟩ }].filter taskAvailable,
        keyGe (sortKey c) (sortKey d) = true) ∧
      (∀ j d, j < i →
        ([{ id := some "A", name := none, action := none, domain := none,
            runtime := ⟨some true⟩, bounty := ⟨some 10, some 1, none⟩,
            q_learning := ⟨none, none, some 1⟩,
            state := ⟨none, some true, none, none, none, none, none⟩ },
          { id := some "B", name := none, action := none, domain := none,
            runtime := ⟨some true⟩, bounty := ⟨some 5, some 5, none⟩,
            q_learning := ⟨none, none, some 1⟩,
            state := ⟨none, some true, none, none, none, none, none⟩ }].filter taskAvailable).get? j
          = some d →
        keyGe (sortKey d) (sortKey c) = false)) :=
  ⟨by decide,
    (greedy_selection_first_max
      [{ id := some "A", name := none, action := none, domain := none,
         runtime := ⟨some true⟩, bounty := ⟨some 10, some 1, none⟩,
         q_learning := ⟨none, none, some 1⟩,
         state := ⟨none, some true, none, none, none, none, none⟩ },
       { id := some "B", name := none, action := none, domain := none,
         runtime := ⟨some true⟩, bounty := ⟨some 5, some 5, none⟩,
         q_learning := ⟨none, none, some 1⟩,
         state := ⟨none, some true, none, none, none, none, none⟩ }]).2 (by decide)⟩

/-- Claim C3: with a non-empty preferred id, selection returns that id
iff a task with that id exists and its `state.available` is true;
otherwise it returns none — never another task's id (no greedy
fallback). -/
theorem preferred_id_no_fallback (tasks : List Task) (pid : String) (h : pid ≠ "") :
    (pickTaskId tasks (some pid) = some pid ↔
      ∃ t ∈ tasks, t.id = some pid ∧ taskAvailable t = true) ∧
    ((¬ ∃ t ∈ tasks, t.id = some pid ∧ taskAvailable t = true) →
      pickTaskId tasks (some pid) = none) := by
  have hpick : pickTaskId tasks (some pid) =
      (if tasks.any (fun t => decide (t.id = some pid) && taskAvailable t) then some pid
        else none) := by
    show (if pid = "" then pickGreedyId tasks
        else if tasks.any (fun t => decide (t.id = some pid) && taskAvailable t) then some pid
        else none) =
      (if tasks.any (fun t => decide (t.id = some pid) && taskAvailable t) then some pid
        else none)
    rw [if_neg h]
  have key : tasks.any (fun t => decide (t.id = some pid) && taskAvailable t) = true ↔
      ∃ t ∈ tasks, t.id = some pid ∧ taskAvailable t = true := by
    simp [List.any_eq_true]
  rcases hb : tasks.any (fun t => decide (t.id = some pid) && taskAvailable t) with _ | _
  · rw [hb] at hpick
    have hnone : pickTaskId tasks (some pid) = none := by
      rw [hpick]
      rfl
    constructor
    · rw [hnone]
      constructor
      · intro hq
        cases hq
      · intro hex
        have := key.mpr hex
        rw [hb] at this
        cases this
    · intro _
      exact hnone
  · rw [hb] at hpick
    have hsome : pickTaskId tasks (some pid) = some pid := by
      rw [hpick]
      rfl
    constructor
    · rw [hsome]
      simp only [true_iff]
      exact key.mp hb
    · intro hex
      exact absurd (key.mp hb) hex

/-- Claim C3 witness: preferred id `"x"` names a present but
unavailable task while a different task `"y"` is available; selection
returns none rather than falling back to `"y"`. -/
theorem preferred_id_no_fallback_witness :
    (pickTaskId
        [{ id := some "x", name := none, action := none, domain := none,
           runtime := ⟨some true⟩, bounty := ⟨some 10, some 1, none⟩,
           q_learning := ⟨none, none, none⟩,
           state := ⟨none, some false, none, none, none, none, none⟩ },
         { id := some "y", name := none, action := none, domain := none,
           runtime := ⟨some true⟩, bounty := ⟨some 5, some 5, none⟩,
           q_learning := ⟨none, none, none⟩,
           state := ⟨none, some true, none, none, none, none, none⟩ }] (some "x") = some "x" ↔
      ∃ t ∈ [{ id := some "x", name := none, action := none, domain := none,
               runtime := ⟨some true⟩, bounty := ⟨some 10, some 1, none⟩,
               q_learning := ⟨none, none, none⟩,
               state := ⟨none, some false, none, none, none, none, none⟩ },
             { id := some "y", name := none, action := none, domain := none,
               runtime := ⟨some true⟩, bounty := ⟨some 5, some 5, none⟩,
               q_learning := ⟨none, none, none⟩,
               state := ⟨none, some true, none, none, none, none, none⟩ }],
        t.id = some "x" ∧ taskAvailable t = true) ∧
    ((¬ ∃ t ∈ [{ id := some "x", name := none, action := none, domain := none,
                 runtime := ⟨some true⟩, bounty := ⟨some 10, some 1, none⟩,
                 q_learning := ⟨none, none, none⟩,
                 state := ⟨none, some false, none, none, none, none, none⟩ },
               { id := some "y", name := none, action := none, domain := none,
                 runtime := ⟨some true⟩, bounty := ⟨some 5, some 5, none⟩,
                 q_learning := ⟨none, none, none⟩,
                 state := ⟨none, some true, none, none, none, none, none⟩ }],
        t.id = some "x" ∧ taskAvailable t = true) →
      pickTaskId
        [{ id := some "x", name := none, action := none, domain := none,
           runtime := ⟨some true⟩, bounty := ⟨some 10, some 1, none⟩,
           q_learning := ⟨none, none, none⟩,
           state := ⟨none, some false, none, none, none, none, none⟩ },
         { id := some "y", name := none, action := none, domain := none,
           runtime := ⟨some true⟩, bounty := ⟨some 5, some 5, none⟩,
           q_learning := ⟨none, none, none⟩,
           state := ⟨none, some true, none, none, none, none, none⟩ }] (some "x") = none) :=
  preferred_id_no_fallback
    [{ id := some "x", name := none, action := none, domain := none,
       runtime := ⟨some true⟩, bounty := ⟨some 10, some 1, none⟩,
       q_learning := ⟨none, none, none⟩,
       state := ⟨none, some false, none, none, none, none, none⟩ },
     { id := some "y", name := none, action := none, domain := none,
       runtime := ⟨some true⟩, bounty := ⟨some 5, some 5, none⟩,
       q_learning := ⟨none, none, none⟩,
       state := ⟨none, some true, none, none, none, none, none⟩ }] "x" (by decide)

theorem pick_none_of_all_unavailable (tasks : List Task) (preferred : Option String)
    (h : ∀ t ∈ tasks, taskAvailable t = false) :
    pickTaskId tasks preferred = none := by
  have hfil : tasks.filter taskAvailable = [] := by
    rw [List.filter_eq_nil_iff]
    intro a ha
    simp [h a ha]
  have hgreedy : pickGreedyId tasks = none := by
    rw [pickGreedyId_eq_bind, hfil]
    rfl
  match preferred with
  | none => exact hgreedy
  | some pid =>
    show (if pid = "" then pickGreedyId tasks
        else if tasks.any (fun t => decide (t.id = some pid) && taskAvailable t) then some pid
        else none) = none
    by_cases hp : pid = ""
    · rw [if_pos hp]
      exact hgreedy
    · rw [if_neg hp]
      have hany : tasks.any (fun t => decide (t.id = some pid) && taskAvailable t) = false := by
        rw [List.any_eq_false]
        intro t ht
        simp [h t ht]
      rw [hany]
      rfl

/-- Claim C6: when no task is eligible, `run_once` still writes a fresh
bounty board snapshot (its `updated_at` is the stamp of this cycle's
board write) and persists the task store, returns the structured
`no_available_task` result without raising, and leaves every task's
state fields unchanged except the derived `available`. -/
theorem run_once_no_available
    (p : String → Option Int) (iso : Int → String) (tms : Times) (ad : Adapters)
    (path : String) (preferred : Option String) (b : Option Board) (tasks : List Task)
    (h : ∀ t ∈ tasks, isAvailable p t tms.refresh1 = false) :
    runOnce p iso tms ad path preferred ⟨some ⟨tasks⟩, b⟩ =
      ({ taskFile := some ⟨tasks.map (fun t => setAvail t (isAvailable p t tms.boardRefresh))⟩,
         boardFile := some
           { updated_at := iso tms.boardStamp, loop_type := "closed",
             tasks := (tasks.map (fun t =>
               setAvail t (isAvailable p t tms.boardRefresh))).map boardEntry } },
       Except.ok (CycleResult.notRan "no_available_task")) := by
  have hrt : ∀ t ∈ refreshAvailability p tms.refresh1 tasks, taskAvailable t = false := by
    intro t ht
    simp only [refreshAvailability, List.mem_map] at ht
    obtain ⟨u, hu, rfl⟩ := ht
    rw [taskAvailable_setAvail]
    exact h u hu
  have hpick : pickTaskId (refreshAvailability p tms.refresh1 tasks) preferred = none :=
    pick_none_of_all_unavailable _ preferred hrt
  simp only [runOnce]
  rw [hpick]
  simp only [truthyId, toBountyBoard]
  rw [refresh_refresh]
  rfl

/-- Claim C6 witness: a one-task store whose task is disabled, constant
clock stamps, empty prior board. -/
theorem run_once_no_available_witness :
    (∀ t ∈ [sampleDisabledTask],
      isAvailable (fun _ => none) t ((⟨0, 0, 0, 0, 0, 0⟩ : Times).refresh1) = false) ∧
    runOnce (fun _ => none) (fun _ => "B") ⟨0, 0, 0, 0, 0, 0⟩ sampleAdapters
      "tasks.json" none ⟨some ⟨[sampleDisabledTask]⟩, none⟩ =
      ({ taskFile := some ⟨[sampleDisabledTask].map
           (fun t => setAvail t (isAvailable (fun _ => none) t
             ((⟨0, 0, 0, 0, 0, 0⟩ : Times).boardRefresh)))⟩,
         boardFile := some
           { updated_at := (fun _ : Int => "B") (⟨0, 0, 0, 0, 0, 0⟩ : Times).boardStamp,
             loop_type := "closed",
             tasks := ([sampleDisabledTask].map
               (fun t => setAvail t (isAvailable (fun _ => none) t
                 ((⟨0, 0, 0, 0, 0, 0⟩ : Times).boardRefresh)))).map boardEntry } },
       Except.ok (CycleResult.notRan "no_available_task")) :=
  ⟨by decide,
    run_once_no_available (fun _ => none) (fun _ => "B") ⟨0, 0, 0, 0, 0, 0⟩ sampleAdapters
      "tasks.json" none none [sampleDisabledTask] (by decide)⟩

theorem find?_first (pr : Task → Bool) :
    ∀ (l : List Task) (i : Nat) (t0 : Task),
      l.get? i = some t0 → pr t0 = true →
      (∀ j d, j < i → l.get? j = some d → pr d = false) →
      l.find? pr = some t0
  | [], _, t0, hget, _, _ => by cases hget
  | a :: as, 0, t0, hget, hpr, _ => by
    have ha : a = t0 := by simpa using hget
    subst ha
    exact List.find?_cons_of_pos _ hpr
  | a :: as, i + 1, t0, hget, hpr, hfirst => by
    have hpra : pr a = false := hfirst 0 a (Nat.succ_pos i) rfl
    rw [List.find?_cons_of_neg _ (by simp [hpra])]
    exact find?_first pr as i t0 (by simpa using hget) hpr
      (fun j d hj hg => hfirst (j + 1) d (by omega) (by simpa using hg))

theorem updateFirst_get? (pr : Task → Bool) (f : Task → Task) :
    ∀ (l : List Task) (i : Nat) (t0 : Task),
      l.get? i = some t0 → pr t0 = true →
      (∀ j d, j < i → l.get? j = some d → pr d = false) →
      ∀ j, (updateFirst pr f l).get? j = if j = i then some (f t0) else l.get? j
  | [], _, t0, hget, _, _ => by cases hget
  | a :: as, 0, t0, hget, hpr, _ => by
    have ha : a = t0 := by simpa using hget
    subst ha
    intro j
    show (if pr a = true then f a :: as else a :: updateFirst pr f as).get? j = _
    rw [if_pos hpr]
    cases j with
    | zero => rfl
    | succ k =>
      rw [if_neg (Nat.succ_ne_zero k)]
      rfl
  | a :: as, i + 1, t0, hget, hpr, hfirst => by
    have hpra : pr a = false := hfirst 0 a (Nat.succ_pos i) rfl
    have ih := updateFirst_get? pr f as i t0 (by simpa using hget) hpr
      (fun j d hj hg => hfirst (j + 1) d (by omega) (by simpa using hg))
    intro j
    show (if pr a = true then f a :: as else a :: updateFirst pr f as).get? j = _
    rw [if_neg (by simp [hpra])]
    cases j with
    | zero =>
      rw [if_neg (by omega : ¬ 0 = i + 1)]
      rfl
    | succ k =>
      show (updateFirst pr f as).get? k = _
      rw [ih k]
      by_cases hk : k = i
      · rw [if_pos hk, if_pos (by omega : k + 1 = i + 1)]
      · rw [if_neg hk, if_neg (by omega : ¬ k + 1 = i + 1)]
        rfl

/-- Claim C10 (implicit): when several tasks share the selected id,
`run_once` dispatches and mutates only the first task in list order
bearing that id — also when a preferred id was accepted because a
later duplicate was the available one; every other position, later
duplicates included, is changed only in the derived `available`
field. -/
theorem run_once_mutates_only_first_duplicate
    (p : String → Option Int) (iso : Int → String) (tms : Times) (ad : Adapters)
    (path : String) (preferred : Option String) (b : Option Board)
    (tasks : List Task) (tid : String) (i : Nat) (t0 : Task)
    (hpick : pickTaskId (refreshAvailability p tms.refresh1 tasks) preferred = some tid)
    (hne : tid ≠ "")
    (hget : (refreshAvailability p tms.refresh1 tasks).get? i = some t0)
    (hid : t0.id = some tid)
    (hfirst : ∀ j d, j < i → (refreshAvailability p tms.refresh1 tasks).get? j = some d →
      d.id ≠ some tid) :
    ∃ ts2 bd,
      runOnce p iso tms ad path preferred ⟨some ⟨tasks⟩, b⟩ =
        ({ taskFile := some ⟨ts2⟩, boardFile := some bd },
          Except.ok (CycleResult.ran tid
            (executeAction ad (markRunning iso tms.started t0)).ok
            (executeAction ad (markRunning iso tms.started t0)).details)) ∧
      bd.updated_at = iso tms.boardStamp ∧
      ts2.get? i = some (setAvail
        (markPostRun iso tms.postRun (markRunning iso tms.started t0)
          (executeAction ad (markRunning iso tms.started t0)))
        (isAvailable p
          (markPostRun iso tms.postRun (markRunning iso tms.started t0)
            (executeAction ad (markRunning iso tms.started t0)))
          tms.boardRefresh)) ∧
      ∀ j, j ≠ i → ts2.get? j =
        ((refreshAvailability p tms.refresh1 tasks).get? j).map
          (fun t => setAvail t (isAvailable p t tms.boardRefresh)) := by
  have hprt0 : (fun t => decide (t.id = some tid)) t0 = true := by
    simp [hid]
  have hprfirst : ∀ j d, j < i →
      (refreshAvailability p tms.refresh1 tasks).get? j = some d →
      (fun t => decide (t.id = some tid)) d = false := by
    intro j d hj hg
    simp only [decide_eq_false_iff_not]
    exact hfirst j d hj hg
  have hfind : (refreshAvailability p tms.refresh1 tasks).find?
      (fun t => decide (t.id = some tid)) = some t0 :=
    find?_first _ _ i t0 hget hprt0 hprfirst
  have htid : (if tid = "" then (none : Option String) else some tid) = some tid :=
    if_neg hne
  let t1 := markRunning iso tms.started t0
  let t2 := markPostRun iso tms.postRun t1 (executeAction ad t1)
  let u1 := updateFirst (fun t => decide (t.id = some tid)) (fun _ => t1)
    (refreshAvailability p tms.refresh1 tasks)
  let u2 := updateFirst (fun t => decide (t.id = some tid)) (fun _ => t2) u1
  have hu1 : ∀ j, u1.get? j =
      if j = i then some t1 else (refreshAvailability p tms.refresh1 tasks).get? j :=
    updateFirst_get? _ _ _ i t0 hget hprt0 hprfirst
  have hu1i : u1.get? i = some t1 := by
    rw [hu1 i, if_pos rfl]
  have hprt1 : (fun t => decide (t.id = some tid)) t1 = true := by
    have : t1.id = t0.id := rfl
    simp [this, hid]
  have hu1first : ∀ j d, j < i → u1.get? j = some d →
      (fun t => decide (t.id = some tid)) d = false := by
    intro j d hj hg
    rw [hu1 j, if_neg (by omega)] at hg
    exact hprfirst j d hj hg
  have hu2 : ∀ j, u2.get? j = if j = i then some t2 else u1.get? j :=
    updateFirst_get? _ _ _ i t1 hu1i hprt1 hu1first
  refine ⟨refreshAvailability p tms.boardRefresh u2,
    { updated_at := iso tms.boardStamp, loop_type := "closed",
      tasks := (refreshAvailability p tms.boardRefresh u2).map boardEntry }, ?_, rfl, ?_, ?_⟩
  · simp only [runOnce, hpick, truthyId, htid, hfind, toBountyBoard]
    rw [refresh_refresh]
  · show (u2.map (fun t => setAvail t (isAvailable p t tms.boardRefresh))).get? i = _
    rw [List.get?_map, hu2 i, if_pos rfl]
    rfl
  · intro j hj
    show (u2.map (fun t => setAvail t (isAvailable p t tms.boardRefresh))).get? j = _
    rw [List.get?_map, hu2 j, if_neg hj, hu1 j, if_neg hj]

/-- Claim C10 witness: two tasks share id `"x"`; the first is disabled,
the second available, the preferred id `"x"` is accepted because of the
second — yet position 0 (the disabled first duplicate) is the one
dispatched and settled, and position 1 is unchanged except
`available`. -/
theorem run_once_mutates_only_first_duplicate_witness :
    (pickTaskId (refreshAvailability (fun _ => none) 0 [sampleDup1, sampleDup2])
      (some "x") = some "x") ∧
    (∃ ts2 bd,
      runOnce (fun _ => none) (fun _ => "B") ⟨0, 0, 0, 0, 0, 0⟩ sampleAdapters "tasks.json"
          (some "x") ⟨some ⟨[sampleDup1, sampleDup2]⟩, none⟩ =
        ({ taskFile := some ⟨ts2⟩, boardFile := some bd },
          Except.ok (CycleResult.ran "x"
            (executeAction sampleAdapters (markRunning (fun _ => "B") 0
              (setAvail sampleDup1 false))).ok
            (executeAction sampleAdapters (markRunning (fun _ => "B") 0
              (setAvail sampleDup1 false))).details)) ∧
      bd.updated_at = "B" ∧
      ts2.get? 0 = some (setAvail
        (markPostRun (fun _ => "B") 0 (markRunning (fun _ => "B") 0 (setAvail sampleDup1 false))
          (executeAction sampleAdapters (markRunning (fun _ => "B") 0
            (setAvail sampleDup1 false))))
        (isAvailable (fun _ => none)
          (markPostRun (fun _ => "B") 0 (markRunning (fun _ => "B") 0
            (setAvail sampleDup1 false))
            (executeAction sampleAdapters (markRunning (fun _ => "B") 0
              (setAvail sampleDup1 false))))
          0)) ∧
      ∀ j, j ≠ 0 → ts2.get? j =
        ((refreshAvailability (fun _ => none) 0 [sampleDup1, sampleDup2]).get? j).map
          (fun t => setAvail t (isAvailable (fun _ => none) t 0))) :=
  ⟨by decide,
    run_once_mutates_only_first_duplicate (fun _ => none) (fun _ => "B") ⟨0, 0, 0, 0, 0, 0⟩
      sampleAdapters "tasks.json" (some "x") none [sampleDup1, sampleDup2] "x" 0
      (setAvail sampleDup1 false)
      (by decide) (by decide) (by decide) (by decide)
      (fun j d hj _ => absurd hj (Nat.not_lt_zero j))⟩

end BTS
